import Mathlib

/-!
Shallow embedding of the message-bus core: the handler registry (the
resolver-wiring variant of DefaultHandlerRegistry), the workflow registry
lifecycle and step dispatcher, the in-memory workflow persistence, and the
Postgres workflow persistence upsert. Each definition is translated from the
corresponding source function; theorems settle the specification claims.
-/

set_option linter.unusedVariables false

namespace Bus

/-- Equality of fallible results is decidable when both components are. -/
instance {ε α : Type} [DecidableEq ε] [DecidableEq α] : DecidableEq (Except ε α) :=
  fun a b =>
    match a, b with
    | Except.ok x, Except.ok y =>
      if h : x = y then Decidable.isTrue (by rw [h])
      else Decidable.isFalse (by intro hc; injection hc; contradiction)
    | Except.error x, Except.error y =>
      if h : x = y then Decidable.isTrue (by rw [h])
      else Decidable.isFalse (by intro hc; injection hc; contradiction)
    | Except.ok x, Except.error y =>
      Decidable.isFalse (by intro hc; exact Except.noConfusion hc)
    | Except.error x, Except.ok y =>
      Decidable.isFalse (by intro hc; exact Except.noConfusion hc)

/-! ### Handler registry model

From the resolver-wiring variant of `DefaultHandlerRegistry`. Handler
functions are compared by identity in the source (`registeredHandler ===
handler`), so a handler is modelled as an opaque identifier. A message
constructor is identified by the `$name` of the instances it constructs,
since the registry only ever uses `new messageType().$name`.
-/

abbrev Handler := Nat

structure Msg where
  name : Option String
  payload : Nat
deriving DecidableEq

structure HandlerResolver where
  handler : Handler
  resolver : Msg → Bool
  messageType : Option String
  topicIdentifier : Option String

structure RegisteredHandlers where
  messageType : String
  handlers : List Handler
deriving DecidableEq

inductive RegistryError where
  | handlerAlreadyRegistered (handler : Handler)
deriving DecidableEq

structure RegistryState where
  registry : List (String × RegisteredHandlers)
  unhandledMessages : List String
  handlerResolvers : List HandlerResolver

def freshRegistry : RegistryState := ⟨[], [], []⟩

def regLookup (reg : List (String × RegisteredHandlers)) (name : String) :
    Option RegisteredHandlers :=
  match reg with
  | [] => none
  | (k, v) :: rest => if k = name then some v else regLookup rest name

def regSet (reg : List (String × RegisteredHandlers)) (name : String)
    (v : RegisteredHandlers) : List (String × RegisteredHandlers) :=
  match reg with
  | [] => [(name, v)]
  | (k, w) :: rest => if k = name then (k, v) :: rest else (k, w) :: regSet rest name v

/-- `this.registry[messageName].handlers`, with `[]` when the name is absent. -/
def keyedByName (s : RegistryState) (messageName : String) : List Handler :=
  match regLookup s.registry messageName with
  | some entry => entry.handlers
  | none => []

/-- First step of `register`: when `resolveWith` is supplied, push a resolver entry. -/
def pushResolver (s : RegistryState) (messageName : String) (handler : Handler)
    (resolveWith : Option (Msg → Bool)) (topicIdentifier : Option String) :
    RegistryState :=
  match resolveWith with
  | some resolver =>
    ⟨s.registry, s.unhandledMessages,
      s.handlerResolvers ++ [⟨handler, resolver, some messageName, topicIdentifier⟩]⟩
  | none => s

/-- Second step of `register`: create the empty keyed entry when absent. -/
def ensureEntry (s : RegistryState) (messageName : String) : RegistryState :=
  match regLookup s.registry messageName with
  | some _ => s
  | none =>
    ⟨regSet s.registry messageName ⟨messageName, []⟩, s.unhandledMessages,
      s.handlerResolvers⟩

/-- The registry state after the first two steps of `register` (resolver
pushed, keyed entry ensured), i.e. at the duplicate-handler check. -/
def registerEntered (s : RegistryState) (messageName : String) (handler : Handler)
    (resolveWith : Option (Msg → Bool)) (topicIdentifier : Option String) :
    RegistryState :=
  ensureEntry (pushResolver s messageName handler resolveWith topicIdentifier)
    messageName

/-- `DefaultHandlerRegistry.register` (resolver-wiring variant): push the
resolver entry when supplied, ensure the keyed entry exists, raise
`HandlerAlreadyRegistered` when the same handler is already keyed under the
name, otherwise append the handler. The mutated state is returned together
with the optional error, matching the source where the resolver push has
already happened when the error is thrown. -/
def register (s : RegistryState) (messageName : String) (handler : Handler)
    (resolveWith : Option (Msg → Bool)) (topicIdentifier : Option String) :
    RegistryState × Option RegistryError :=
  if handler ∈ keyedByName (registerEntered s messageName handler resolveWith topicIdentifier) messageName then
    (registerEntered s messageName handler resolveWith topicIdentifier,
      some (RegistryError.handlerAlreadyRegistered handler))
  else
    (⟨regSet (registerEntered s messageName handler resolveWith topicIdentifier).registry
        messageName
        ⟨messageName,
          keyedByName (registerEntered s messageName handler resolveWith topicIdentifier)
            messageName ++ [handler]⟩,
      (registerEntered s messageName handler resolveWith topicIdentifier).unhandledMessages,
      (registerEntered s messageName handler resolveWith topicIdentifier).handlerResolvers⟩,
     none)

/-- `resolveCustomHandlers`: resolvers whose predicate accepts the message, in
list (= push) order. -/
def resolveCustomHandlers (s : RegistryState) (message : Msg) : List Handler :=
  (s.handlerResolvers.filter (fun hr => hr.resolver message)).map (fun hr => hr.handler)

/-- The `messageHandlers` expression of `get`: keyed handlers when the message
carries a registered `$name`, else `[]`. -/
def keyedHandlers (s : RegistryState) (message : Msg) : List Handler :=
  match message.name with
  | some n =>
    match regLookup s.registry n with
    | some entry => entry.handlers
    | none => []
  | none => []

def nameRegistered (s : RegistryState) (message : Msg) : Bool :=
  match message.name with
  | some n => (regLookup s.registry n).isSome
  | none => false

/-- `DefaultHandlerRegistry.get` (resolver-wiring variant). When neither keyed
nor custom handlers exist, the message name is recorded once in the
unhandled-messages diagnostic list and `[]` is returned. -/
def get (s : RegistryState) (message : Msg) : List Handler × RegistryState :=
  if (resolveCustomHandlers s message).isEmpty && !(nameRegistered s message) then
    match message.name with
    | some n =>
      if s.unhandledMessages.contains n then ([], s)
      else ([], ⟨s.registry, s.unhandledMessages ++ [n], s.handlerResolvers⟩)
    | none => ([], s)
  else
    (keyedHandlers s message ++ resolveCustomHandlers s message, s)

/-- `DefaultHandlerRegistry.reset`: the source sets only `this.registry = {}`. -/
def reset (s : RegistryState) : RegistryState :=
  ⟨[], s.unhandledMessages, s.handlerResolvers⟩

/-- Invariant: every keyed handler list is duplicate-free. -/
def registryWF (s : RegistryState) : Prop :=
  ∀ p ∈ s.registry, (p.2).handlers.Nodup

/-! ### Workflow state model

`$workflowId`, `$name`, `$version`, `$status` plus user-defined fields; user
fields are modelled as a string-keyed association list. A step's return value
is a `Partial<WorkflowState>`: every core field optional plus any subset of
user fields. -/

inductive WorkflowStatus where
  | running
  | complete
  | discard
deriving DecidableEq

structure WorkflowState where
  workflowId : String
  name : String
  version : Nat
  status : WorkflowStatus
  fields : List (String × String)
deriving DecidableEq

def WorkflowState.getField (s : WorkflowState) (key : String) : Option String :=
  s.fields.lookup key

structure WorkflowDelta where
  workflowId : Option String
  name : Option String
  version : Option Nat
  status : Option WorkflowStatus
  fields : List (String × String)
deriving DecidableEq

/-- `Object.assign` on the user-field maps: values of `source` override values
of `target`; keys only in `target` keep their values and position, keys only
in `source` are appended in order. -/
def assignFields (target source : List (String × String)) :
    List (String × String) :=
  target.map (fun kv => (kv.1, (source.lookup kv.1).getD kv.2))
    ++ source.filter (fun kv => (target.lookup kv.1).isNone)

/-- `{...old, ...delta}` / `Object.assign({}, old, delta)`: every core field
comes from the delta when set, else from `old` (which is a complete
instance). -/
def spreadMerge (old : WorkflowState) (delta : WorkflowDelta) : WorkflowState :=
  ⟨delta.workflowId.getD old.workflowId,
   delta.name.getD old.name,
   delta.version.getD old.version,
   delta.status.getD old.status,
   assignFields old.fields delta.fields⟩

/-- `Object.assign(new workflowStateConstructor(), old, delta)`: the fresh
instance contributes only user fields that `old` lacks, since `old` is a
complete instance whose core fields mask the fresh defaults. -/
def mergeState (freshInstance old : WorkflowState) (delta : WorkflowDelta) :
    WorkflowState :=
  ⟨delta.workflowId.getD old.workflowId,
   delta.name.getD old.name,
   delta.version.getD old.version,
   delta.status.getD old.status,
   assignFields (assignFields freshInstance.fields old.fields) delta.fields⟩

/-- Modelled from the spec: the `WorkflowState` base class (workflow-state.ts)
is not among the sources; only its uses are. Per the spec's data model,
`$version` is 0 before the first save and `$name` matches the state type
name, so a freshly constructed instance carries `$version = 0`, its type's
`$name`, and empty user fields. -/
def newWorkflowStateInstance (name : String) : WorkflowState :=
  ⟨"", name, 0, WorkflowStatus.running, []⟩

/-- `createWorkflowState`: `new workflowStateType()`, then
`$status := Running` and `$workflowId := uuid.v4()`. The constructed default
instance and the generated UUID are parameters. -/
def createWorkflowState (stateTypeDefault : WorkflowState) (freshUuid : String) :
    WorkflowState :=
  ⟨freshUuid, stateTypeDefault.name, stateTypeDefault.version,
   WorkflowStatus.running, stateTypeDefault.fields⟩

/-- `dispatchMessageToWorkflow`, reduced to its state effect: the step runs on
a frozen copy of the state; a `Discard` delta or a nil return persists
nothing; otherwise the merge of (fresh instance, old state, delta) is passed
to `persistence.saveWorkflowState`. The returned option is the state passed
to the save, `none` when no persistence call occurs. The message and
attributes only feed the step, so the step is abstracted as a function of the
state snapshot. -/
def dispatchMessageToWorkflow (stateTypeInstance old : WorkflowState)
    (handler : WorkflowState → Option WorkflowDelta) : Option WorkflowState :=
  match handler old with
  | some output =>
    if output.status = some WorkflowStatus.discard then
      none
    else
      some (mergeState stateTypeInstance old output)
  | none => none

/-- The bus-side handler installed by `registerFnStartedBy` for each
`onStartedBy` pair, reduced to its state effect: create a fresh state, freeze
a copy, run the step on it, and when the step returns a non-nil delta pass
`{...workflowState, ...result}` to `persistence.saveWorkflowState`. Returns
the state passed to the save, `none` when no save occurs. -/
def startedByHandlerBody (stateTypeDefault : WorkflowState) (freshUuid : String)
    (handler : WorkflowState → Option WorkflowDelta) : Option WorkflowState :=
  match handler (createWorkflowState stateTypeDefault freshUuid) with
  | some result =>
    some (spreadMerge (createWorkflowState stateTypeDefault freshUuid) result)
  | none => none

/-! ### Postgres persistence (PostgresPersistence.saveWorkflowData) -/

structure PgRow where
  id : String
  version : Nat
  data : WorkflowState
deriving DecidableEq

inductive PgError where
  | workflowDataNotFound (workflowId tableName : String) (oldVersion : Nat)
deriving DecidableEq

/-- The `plainWorkflowData` written by `saveWorkflowData`: the serialized
state with `$version` replaced by `newVersion = oldVersion + 1`. `toPlain`
and `serialize` are identities on this representation. -/
def savePlainData (workflowData : WorkflowState) : WorkflowState :=
  ⟨workflowData.workflowId, workflowData.name, workflowData.version + 1,
   workflowData.status, workflowData.fields⟩

/-- `upsertWorkflowData`: `oldVersion = 0` inserts `(id, newVersion, data)`;
otherwise rows matching `id = workflowId and version = oldVersion` are
updated to `(version = newVersion, data)` and an affected-row count of zero
raises `WorkflowDataNotFound(workflowId, tableName, oldVersion)`. -/
def upsertWorkflowData (tableName : String) (table : List PgRow)
    (workflowId : String) (plainWorkflowData : WorkflowState)
    (oldVersion newVersion : Nat) : Except PgError (List PgRow) :=
  if oldVersion = 0 then
    Except.ok (table ++ [⟨workflowId, newVersion, plainWorkflowData⟩])
  else if table.countP (fun r => r.id == workflowId && r.version == oldVersion) = 0 then
    Except.error (PgError.workflowDataNotFound workflowId tableName oldVersion)
  else
    Except.ok (table.map fun r =>
      if r.id == workflowId && r.version == oldVersion
      then ⟨r.id, newVersion, plainWorkflowData⟩ else r)

/-- `saveWorkflowData`: `oldVersion := $version`, `newVersion := oldVersion+1`,
then upsert the plain data. -/
def saveWorkflowData (tableName : String) (table : List PgRow)
    (workflowData : WorkflowState) : Except PgError (List PgRow) :=
  upsertWorkflowData tableName table workflowData.workflowId
    (savePlainData workflowData) workflowData.version (workflowData.version + 1)

/-! ### In-memory persistence (InMemoryPersistence) -/

inductive InMemoryError where
  | workflowStateNotInitialized
  | storeTypeError
deriving DecidableEq

abbrev MemStore := List (String × List WorkflowState)

def memLookup (store : MemStore) (name : String) : Option (List WorkflowState) :=
  match store with
  | [] => none
  | (k, v) :: rest => if k = name then some v else memLookup rest name

def memSet (store : MemStore) (name : String) (items : List WorkflowState) :
    MemStore :=
  match store with
  | [] => [(name, items)]
  | (k, v) :: rest =>
    if k = name then (k, items) :: rest else (k, v) :: memSet rest name items

/-- `InMemoryPersistence.initializeWorkflow`: installs an empty row list for
the state type's `$name`. -/
def memInitWorkflow (store : MemStore) (stateName : String) : MemStore :=
  memSet store stateName []

/-- `lookup` extracts a scalar key from the message; `mapsTo` names the state
field compared against it. The lookup result is `Option String`: `none`
models a missing / `undefined` key and `some ""` the empty string, the two
falsy values of the source's string-typed keys. -/
structure MessageWorkflowMapping where
  lookup : Msg → Option String
  mapsTo : String

/-- `InMemoryPersistence.getWorkflowState`: a falsy lookup key returns `[]`;
an uninitialized state type throws `WorkflowStateNotInitialized`; otherwise
the rows with `(includeCompleted || $status === Running) &&
data[mapsTo] === filterValue` are returned. -/
def memGetWorkflowState (store : MemStore) (stateName : String)
    (messageMap : MessageWorkflowMapping) (message : Msg)
    (includeCompleted : Bool) : Except InMemoryError (List WorkflowState) :=
  match messageMap.lookup message with
  | none => Except.ok []
  | some filterValue =>
    if filterValue = "" then Except.ok []
    else
      match memLookup store stateName with
      | none => Except.error InMemoryError.workflowStateNotInitialized
      | some items =>
        Except.ok (items.filter fun d =>
          (includeCompleted || d.status == WorkflowStatus.running)
          && d.getField messageMap.mapsTo == some filterValue)

/-- `Object.assign(existingItem, workflowState)`: every core field of the
saved state overrides the stored one; stored user fields absent from the
saved state survive. -/
def objAssignState (target source : WorkflowState) : WorkflowState :=
  ⟨source.workflowId, source.name, source.version, source.status,
   assignFields target.fields source.fields⟩

def updateFirstById (items : List WorkflowState) (w : WorkflowState) :
    List WorkflowState :=
  match items with
  | [] => []
  | d :: rest =>
    if d.workflowId = w.workflowId then objAssignState d w :: rest
    else d :: updateFirstById rest w

/-- `InMemoryPersistence.saveWorkflowState`: find the stored row with the same
`$workflowId`; assign over it when found, else push. Reading `.find` of an
undefined row list (state type never initialized) is a runtime type error. No
version is checked or incremented. -/
def memSaveWorkflowState (store : MemStore) (w : WorkflowState) :
    Except InMemoryError MemStore :=
  match memLookup store w.name with
  | none => Except.error InMemoryError.storeTypeError
  | some items =>
    if items.any (fun d => d.workflowId == w.workflowId) then
      Except.ok (memSet store w.name (updateFirstById items w))
    else
      Except.ok (memSet store w.name (items ++ [w]))

/-! ### Workflow registry lifecycle (WorkflowRegistry)

Workflows are represented by their unique names; the buffered registry, the
`isInitialized` and `isInitializing` flags are the relevant state. The
initialize body between the guard section and completion awaits persistence
calls, so a concurrent second call observes `isInitializing = true` with the
buffer still populated; `wfInitEntered` is that intermediate state, and
`wfInitRun` is the whole call run to completion without interleaving. -/

structure WorkflowRegistryState where
  workflowRegistry : List String
  isInitialized : Bool
  isInitializing : Bool
deriving DecidableEq

inductive WorkflowRegistryError where
  | registerAfterInit (workflowName : String)
  | duplicateWorkflowName (workflowName : String)
  | alreadyInitialized
deriving DecidableEq

def freshWorkflowRegistry : WorkflowRegistryState := ⟨[], false, false⟩

/-- `WorkflowRegistry.register`. -/
def wfRegister (s : WorkflowRegistryState) (workflowName : String) :
    Except WorkflowRegistryError WorkflowRegistryState :=
  if s.isInitialized then
    Except.error (WorkflowRegistryError.registerAfterInit workflowName)
  else if s.workflowRegistry.contains workflowName then
    Except.error (WorkflowRegistryError.duplicateWorkflowName workflowName)
  else
    Except.ok ⟨s.workflowRegistry ++ [workflowName], s.isInitialized, s.isInitializing⟩

/-- `WorkflowRegistry.initialize` run to completion: an empty buffer returns
silently; otherwise a set `isInitialized` or `isInitializing` flag throws;
otherwise the workflows are wired, the buffer is cleared, and the flags end
as initialized. -/
def wfInitRun (s : WorkflowRegistryState) :
    Except WorkflowRegistryError WorkflowRegistryState :=
  if s.workflowRegistry.isEmpty then
    Except.ok s
  else if s.isInitialized || s.isInitializing then
    Except.error WorkflowRegistryError.alreadyInitialized
  else
    Except.ok ⟨[], true, false⟩

/-- The state seen by a reentrant call while a first `initialize` is awaiting
inside its loop: `isInitializing` has been set, the buffer not yet cleared. -/
def wfInitEntered (s : WorkflowRegistryState) : WorkflowRegistryState :=
  ⟨s.workflowRegistry, s.isInitialized, true⟩

/-! ### Helper lemmas for the registry -/

theorem regLookup_regSet_self (reg : List (String × RegisteredHandlers))
    (name : String) (v : RegisteredHandlers) :
    regLookup (regSet reg name v) name = some v := by
  induction reg with
  | nil => simp [regSet, regLookup]
  | cons kv rest ih =>
    obtain ⟨k, w⟩ := kv
    by_cases hk : k = name
    · simp [regSet, regLookup, hk]
    · simp [regSet, regLookup, hk, ih]

theorem regSet_mem (reg : List (String × RegisteredHandlers)) (name : String)
    (v : RegisteredHandlers) :
    ∀ p ∈ regSet reg name v, p = (name, v) ∨ p ∈ reg := by
  induction reg with
  | nil =>
    intro p hp
    simp [regSet] at hp
    exact Or.inl hp
  | cons kv rest ih =>
    obtain ⟨k, w⟩ := kv
    intro p hp
    by_cases hk : k = name
    · simp [regSet, hk] at hp
      rcases hp with hp | hp
      · exact Or.inl (by rw [hp])
      · exact Or.inr (List.mem_cons_of_mem _ hp)
    · simp [regSet, hk] at hp
      rcases hp with hp | hp
      · exact Or.inr (by rw [hp]; exact List.mem_cons_self _ _)
      · rcases ih p hp with h | h
        · exact Or.inl h
        · exact Or.inr (List.mem_cons_of_mem _ h)

theorem regLookup_mem (reg : List (String × RegisteredHandlers)) (name : String)
    (e : RegisteredHandlers) (h : regLookup reg name = some e) : (name, e) ∈ reg := by
  induction reg with
  | nil => simp [regLookup] at h
  | cons kv rest ih =>
    obtain ⟨k, w⟩ := kv
    by_cases hk : k = name
    · simp [regLookup, hk] at h
      rw [← h, ← hk]
      exact List.mem_cons_self _ _
    · simp [regLookup, hk] at h
      exact List.mem_cons_of_mem _ (ih h)

theorem keyedByName_nodup (s : RegistryState) (messageName : String)
    (hwf : registryWF s) : (keyedByName s messageName).Nodup := by
  unfold keyedByName
  cases hl : regLookup s.registry messageName with
  | none => simp
  | some e => exact hwf (messageName, e) (regLookup_mem _ _ _ hl)

theorem pushResolver_registry (s : RegistryState) (messageName : String)
    (handler : Handler) (resolveWith : Option (Msg → Bool))
    (topicIdentifier : Option String) :
    (pushResolver s messageName handler resolveWith topicIdentifier).registry
      = s.registry := by
  cases resolveWith <;> rfl

theorem keyedByName_pushResolver (s : RegistryState) (messageName : String)
    (handler : Handler) (resolveWith : Option (Msg → Bool))
    (topicIdentifier : Option String) (n : String) :
    keyedByName (pushResolver s messageName handler resolveWith topicIdentifier) n
      = keyedByName s n := by
  unfold keyedByName
  rw [pushResolver_registry]

theorem keyedByName_ensureEntry (s : RegistryState) (messageName : String) :
    keyedByName (ensureEntry s messageName) messageName = keyedByName s messageName := by
  unfold ensureEntry keyedByName
  cases hl : regLookup s.registry messageName with
  | some e => simp [hl]
  | none => simp [hl, regLookup_regSet_self]

theorem get_handlers_split (s : RegistryState) (message : Msg) :
    (get s message).1 = keyedHandlers s message ++ resolveCustomHandlers s message := by
  unfold get
  split
  case isTrue h =>
    rw [Bool.and_eq_true] at h
    obtain ⟨h1, h2⟩ := h
    have hcustom : resolveCustomHandlers s message = [] := by
      simpa using h1
    have hreg : nameRegistered s message = false := by
      simpa using h2
    have hkey : keyedHandlers s message = [] := by
      cases hn : message.name with
      | none => simp [keyedHandlers, hn]
      | some n =>
        cases hl : regLookup s.registry n with
        | none => simp [keyedHandlers, hn, hl]
        | some e =>
          unfold nameRegistered at hreg
          rw [hn] at hreg
          simp [hl] at hreg
    rw [hkey, hcustom]
    cases message.name with
    | none => rfl
    | some n =>
      by_cases hc : n ∈ s.unhandledMessages <;> simp [hc]
  case isFalse h => rfl

theorem ensureEntry_resolvers (s : RegistryState) (messageName : String) :
    (ensureEntry s messageName).handlerResolvers = s.handlerResolvers := by
  unfold ensureEntry
  split <;> rfl

theorem keyedByName_registerEntered (s : RegistryState) (messageName : String)
    (handler : Handler) (resolveWith : Option (Msg → Bool))
    (topicIdentifier : Option String) :
    keyedByName (registerEntered s messageName handler resolveWith topicIdentifier)
      messageName = keyedByName s messageName := by
  unfold registerEntered
  rw [keyedByName_ensureEntry, keyedByName_pushResolver]

theorem registerEntered_resolvers_some (s : RegistryState) (messageName : String)
    (handler : Handler) (p : Msg → Bool) (topicIdentifier : Option String) :
    (registerEntered s messageName handler (some p) topicIdentifier).handlerResolvers
      = s.handlerResolvers ++ [⟨handler, p, some messageName, topicIdentifier⟩] := by
  unfold registerEntered
  rw [ensureEntry_resolvers]
  rfl

theorem registryWF_pushResolver (s : RegistryState) (messageName : String)
    (handler : Handler) (resolveWith : Option (Msg → Bool))
    (topicIdentifier : Option String) (hwf : registryWF s) :
    registryWF (pushResolver s messageName handler resolveWith topicIdentifier) := by
  intro p hp
  rw [pushResolver_registry] at hp
  exact hwf p hp

theorem registryWF_ensureEntry (s : RegistryState) (messageName : String)
    (hwf : registryWF s) : registryWF (ensureEntry s messageName) := by
  unfold ensureEntry
  split
  · exact hwf
  · intro p hp
    rcases regSet_mem _ _ _ p hp with h | h
    · rw [h]
      exact List.nodup_nil
    · exact hwf p h

theorem registryWF_registerEntered (s : RegistryState) (messageName : String)
    (handler : Handler) (resolveWith : Option (Msg → Bool))
    (topicIdentifier : Option String) (hwf : registryWF s) :
    registryWF (registerEntered s messageName handler resolveWith topicIdentifier) :=
  registryWF_ensureEntry _ _
    (registryWF_pushResolver _ _ _ _ _ hwf)

/-! ### Claim theorems: handler registry -/

/-- C5: for every incoming message, `get` returns the ordered concatenation of
(a) the handlers keyed by the message's `$name` when that name is registered,
followed by (b) every handler whose `resolveWith` predicate accepts the
message, in registration order. -/
theorem get_returns_keyed_then_resolved (s : RegistryState) (message : Msg) :
    (get s message).1 = keyedHandlers s message ++ resolveCustomHandlers s message :=
  get_handlers_split s message

/-- C6: `register` raises `HandlerAlreadyRegistered` if and only if the same
handler is already registered under the same message name, and starting from
a registry whose keyed handler lists are duplicate-free, registration keeps
every keyed handler list duplicate-free: within a single `$name` the same
handler never appears twice. -/
theorem register_duplicate_guard (s : RegistryState) (messageName : String)
    (handler : Handler) (resolveWith : Option (Msg → Bool))
    (topicIdentifier : Option String) :
    ((register s messageName handler resolveWith topicIdentifier).2
        = some (RegistryError.handlerAlreadyRegistered handler)
      ↔ handler ∈ keyedByName s messageName)
    ∧ (registryWF s →
        registryWF (register s messageName handler resolveWith topicIdentifier).1) := by
  unfold register
  split
  case isTrue hmem =>
    rw [keyedByName_registerEntered] at hmem
    constructor
    · exact ⟨fun _ => hmem, fun _ => rfl⟩
    · intro hwf
      exact registryWF_registerEntered _ _ _ _ _ hwf
  case isFalse hmem =>
    rw [keyedByName_registerEntered] at hmem
    constructor
    · constructor
      · intro hcontra
        exact Option.noConfusion hcontra
      · intro hmem'
        exact absurd hmem' hmem
    · intro hwf
      have hwf2 : registryWF
          (registerEntered s messageName handler resolveWith topicIdentifier) :=
        registryWF_registerEntered _ _ _ _ _ hwf
      intro p hp
      rcases regSet_mem _ _ _ p hp with h | h
      · rw [h]
        refine List.Nodup.append ?_ (List.nodup_singleton _) ?_
        · exact keyedByName_nodup _ _ hwf2
        · intro a ha hb
          rw [List.mem_singleton] at hb
          rw [hb] at ha
          rw [keyedByName_registerEntered] at ha
          exact hmem ha
      · exact hwf2 p h

/-- C6 witness: registering a fresh handler on the empty registry reports no
duplicate and preserves the duplicate-free invariant. -/
theorem register_duplicate_guard_witness :
    ((register freshRegistry "A" 0 none none).2
        = some (RegistryError.handlerAlreadyRegistered 0)
      ↔ 0 ∈ keyedByName freshRegistry "A")
    ∧ registryWF (register freshRegistry "A" 0 none none).1 := by
  have h := register_duplicate_guard freshRegistry "A" 0 none none
  refine ⟨h.1, h.2 ?_⟩
  intro p hp
  exact absurd hp (List.not_mem_nil p)

/-- C8 counterexample: a registry built by one `register` with a resolver and
one `get` on an unregistered name has, after `reset()`, a non-empty resolver
list and a non-empty unhandled-messages list, and `get` still resolves the
handler through the surviving resolver — the claim that `reset` leaves all
three collections empty fails. -/
def c8Pred : Msg → Bool := fun message => message.payload == 42

def c8State : RegistryState :=
  (get ((register freshRegistry "A" 0 (some c8Pred) none).1) ⟨some "B", 7⟩).2

theorem reset_keeps_resolvers_counterexample :
    (reset c8State).handlerResolvers.length = 1
    ∧ (reset c8State).unhandledMessages = ["B"]
    ∧ (get (reset c8State) ⟨none, 42⟩).1 = [0] :=
  ⟨rfl, rfl, rfl⟩

/-- C8 amended: `reset` clears only the name-keyed registrations; the resolver
list and the unhandled-messages diagnostic list are left untouched. -/
theorem reset_clears_only_registry (s : RegistryState) :
    (reset s).registry = []
    ∧ (reset s).handlerResolvers = s.handlerResolvers
    ∧ (reset s).unhandledMessages = s.unhandledMessages :=
  ⟨rfl, rfl, rfl⟩

/-- C10: when `register` is called with a `resolveWith` predicate for a
handler already registered under the same message name, the resolver entry is
appended before the duplicate check, so the call raises
`HandlerAlreadyRegistered` while the resolver entry has nevertheless been
added, and a later `get` on any message accepted by the predicate returns the
handler. -/
theorem resolver_pushed_before_duplicate_check (s : RegistryState)
    (messageName : String) (handler : Handler) (p : Msg → Bool)
    (topicIdentifier : Option String)
    (hdup : handler ∈ keyedByName s messageName) :
    (register s messageName handler (some p) topicIdentifier).2
        = some (RegistryError.handlerAlreadyRegistered handler)
    ∧ (register s messageName handler (some p) topicIdentifier).1.handlerResolvers
        = s.handlerResolvers ++ [⟨handler, p, some messageName, topicIdentifier⟩]
    ∧ ∀ message : Msg, p message = true →
        handler ∈ (get (register s messageName handler (some p) topicIdentifier).1 message).1 := by
  have hmem : handler ∈ keyedByName
      (registerEntered s messageName handler (some p) topicIdentifier) messageName := by
    rw [keyedByName_registerEntered]
    exact hdup
  have hreg : register s messageName handler (some p) topicIdentifier
      = (registerEntered s messageName handler (some p) topicIdentifier,
         some (RegistryError.handlerAlreadyRegistered handler)) := by
    unfold register
    rw [if_pos hmem]
  refine ⟨by rw [hreg], ?_, ?_⟩
  · rw [hreg]
    exact registerEntered_resolvers_some s messageName handler p topicIdentifier
  · intro message hpm
    rw [hreg, get_handlers_split]
    refine List.mem_append_right _ ?_
    unfold resolveCustomHandlers
    refine List.mem_map.mpr ⟨⟨handler, p, some messageName, topicIdentifier⟩, ?_, rfl⟩
    refine List.mem_filter.mpr ⟨?_, hpm⟩
    rw [registerEntered_resolvers_some]
    exact List.mem_append_right _ (List.mem_singleton.mpr rfl)

def c10Base : RegistryState := (register freshRegistry "A" 7 none none).1

def c10Pred : Msg → Bool := fun message => message.payload == 42

/-- C10 witness: handler 7 is registered for "A"; re-registering it with a
resolver raises the duplicate error, yet a message accepted by the predicate
still resolves to handler 7. -/
theorem resolver_pushed_before_duplicate_check_witness :
    (register c10Base "A" 7 (some c10Pred) none).2
        = some (RegistryError.handlerAlreadyRegistered 7)
    ∧ 7 ∈ (get (register c10Base "A" 7 (some c10Pred) none).1 ⟨none, 42⟩).1 := by
  have h := resolver_pushed_before_duplicate_check c10Base "A" 7 c10Pred none
    (by decide)
  exact ⟨h.1, h.2.2 ⟨none, 42⟩ (by decide)⟩

/-! ### Claim theorems: persistence -/

def c1Stored : WorkflowState := ⟨"id-1", "W", 3, WorkflowStatus.running, []⟩

def c1Saved : WorkflowState := ⟨"id-1", "W", 1, WorkflowStatus.running, []⟩

/-- C1 counterexample: the in-memory `saveWorkflowState` does not implement
optimistic concurrency. A stored row with version 3 and a save carrying
version 1 differ, so the claim requires `WorkflowStateNotFound`; instead the
save succeeds and silently overwrites the stored row. -/
theorem inMemory_save_ignores_version_counterexample :
    c1Stored.version ≠ c1Saved.version
    ∧ memSaveWorkflowState [("W", [c1Stored])] c1Saved
        = Except.ok [("W", [c1Saved])] := by
  decide

/-- C1 amended: the Postgres `saveWorkflowData` is the claimed upsert —
`$version = 0` inserts with stored version 1; otherwise the row with
`id = $workflowId and version = oldVersion` is updated to version
`oldVersion + 1`; when no row matches, `WorkflowDataNotFound(id, table,
oldVersion)` is raised. The in-memory `saveWorkflowState` instead upserts by
`$workflowId` alone and never raises on a version mismatch. -/
theorem saveWorkflowState_upsert_amended (tableName : String) (table : List PgRow)
    (w : WorkflowState) (store : MemStore) :
    (w.version = 0 →
      saveWorkflowData tableName table w
        = Except.ok (table ++ [⟨w.workflowId, 1, savePlainData w⟩]))
    ∧ (w.version ≠ 0 →
        (∃ r ∈ table, r.id = w.workflowId ∧ r.version = w.version) →
        ∃ t', saveWorkflowData tableName table w = Except.ok t'
          ∧ (⟨w.workflowId, w.version + 1, savePlainData w⟩ : PgRow) ∈ t')
    ∧ (w.version ≠ 0 →
        (∀ r ∈ table, ¬ (r.id = w.workflowId ∧ r.version = w.version)) →
        saveWorkflowData tableName table w
          = Except.error (PgError.workflowDataNotFound w.workflowId tableName w.version))
    ∧ ((memLookup store w.name).isSome = true →
        ∃ store', memSaveWorkflowState store w = Except.ok store') := by
  refine ⟨?_, ?_, ?_, ?_⟩
  · intro hv
    unfold saveWorkflowData upsertWorkflowData
    simp [hv]
  · intro hv hex
    obtain ⟨r0, hr0, hid, hver⟩ := hex
    have hp : (r0.id == w.workflowId && r0.version == w.version) = true := by
      simp [hid, hver]
    have hcount : table.countP (fun r => r.id == w.workflowId && r.version == w.version) ≠ 0 := by
      intro h0
      rw [List.countP_eq_zero] at h0
      exact (h0 r0 hr0) hp
    unfold saveWorkflowData upsertWorkflowData
    rw [if_neg hv, if_neg hcount]
    refine ⟨_, rfl, ?_⟩
    refine List.mem_map.mpr ⟨r0, hr0, ?_⟩
    simp [hp, hid, hver]
  · intro hv hall
    have hcount : table.countP (fun r => r.id == w.workflowId && r.version == w.version) = 0 := by
      rw [List.countP_eq_zero]
      intro r hr hp
      rw [Bool.and_eq_true, beq_iff_eq, beq_iff_eq] at hp
      exact hall r hr hp
    unfold saveWorkflowData upsertWorkflowData
    rw [if_neg hv, if_pos hcount]
  · intro hsome
    unfold memSaveWorkflowState
    cases hm : memLookup store w.name with
    | none =>
      rw [hm] at hsome
      exact absurd hsome (by simp)
    | some items =>
      simp only [hm]
      by_cases ha : items.any (fun d => d.workflowId == w.workflowId) = true
      · rw [if_pos ha]
        exact ⟨_, rfl⟩
      · rw [if_neg ha]
        exact ⟨_, rfl⟩

def c1w0 : WorkflowState := ⟨"a", "W", 0, WorkflowStatus.running, []⟩

def c1w2 : WorkflowState := ⟨"a", "W", 2, WorkflowStatus.running, []⟩

def c1Row2 : PgRow := ⟨"a", 2, c1w2⟩

/-- C1 witness: the insert, guarded update, mismatch, and initialized
in-memory cases of the amended save behaviour at concrete inputs. -/
theorem saveWorkflowState_upsert_amended_witness :
    saveWorkflowData "t" [] c1w0 = Except.ok [⟨"a", 1, savePlainData c1w0⟩]
    ∧ (∃ t', saveWorkflowData "t" [c1Row2] c1w2 = Except.ok t'
        ∧ (⟨"a", 3, savePlainData c1w2⟩ : PgRow) ∈ t')
    ∧ saveWorkflowData "t" [] c1w2
        = Except.error (PgError.workflowDataNotFound "a" "t" 2)
    ∧ (∃ store', memSaveWorkflowState [("W", [])] c1w2 = Except.ok store') := by
  refine ⟨?_, ?_, ?_, ?_⟩
  · exact (saveWorkflowState_upsert_amended "t" [] c1w0 []).1 rfl
  · exact (saveWorkflowState_upsert_amended "t" [c1Row2] c1w2 []).2.1 (by decide)
      ⟨c1Row2, by decide, by decide, by decide⟩
  · exact (saveWorkflowState_upsert_amended "t" [] c1w2 []).2.2.1 (by decide)
      (fun r hr => absurd hr (List.not_mem_nil r))
  · exact (saveWorkflowState_upsert_amended "t" [] c1w2 [("W", [])]).2.2.2 (by decide)

/-! ### Claim theorems: step dispatcher and startedBy handler -/

def c2Fresh : WorkflowState := ⟨"", "W", 0, WorkflowStatus.running, []⟩

def c2Old : WorkflowState := ⟨"wf-1", "W", 1, WorkflowStatus.running, []⟩

def c2Delta : WorkflowDelta := ⟨none, none, some 5, none, []⟩

/-- C2 counterexample: a step delta that sets `$version` (here 5, against an
old state of version 1) is merged as-is, so the state passed to
`saveWorkflowState` carries `$version = 5`; the SQL save then runs its update
against version 5, matches no row, and raises `WorkflowDataNotFound` instead
of persisting `$version = oldVersion + 1 = 2`. -/
theorem dispatch_version_increment_counterexample :
    dispatchMessageToWorkflow c2Fresh c2Old (fun _ => some c2Delta)
      = some (mergeState c2Fresh c2Old c2Delta)
    ∧ (mergeState c2Fresh c2Old c2Delta).version = 5
    ∧ c2Old.version + 1 = 2
    ∧ saveWorkflowData "t" [⟨"wf-1", 1, c2Old⟩] (mergeState c2Fresh c2Old c2Delta)
        = Except.error (PgError.workflowDataNotFound "wf-1" "t" 5) := by
  decide

/-- C2 amended: a nil step return or a `Discard` delta persists nothing;
otherwise the state passed to `saveWorkflowState` is
`merge(freshInstance, oldState, delta)`, and whenever the delta does not set
`$version`, the data stored by the save carries `$version = oldVersion + 1`
(the dispatcher itself leaves `$version` at the merged value; a delta that
sets `$version` overrides the optimistic baseline). -/
theorem dispatch_merge_persist_amended (freshInstance old : WorkflowState)
    (handler : WorkflowState → Option WorkflowDelta) (d : WorkflowDelta) :
    (handler old = none →
      dispatchMessageToWorkflow freshInstance old handler = none)
    ∧ (handler old = some d → d.status = some WorkflowStatus.discard →
        dispatchMessageToWorkflow freshInstance old handler = none)
    ∧ (handler old = some d → d.status ≠ some WorkflowStatus.discard →
        dispatchMessageToWorkflow freshInstance old handler
          = some (mergeState freshInstance old d))
    ∧ (d.version = none →
        (savePlainData (mergeState freshInstance old d)).version = old.version + 1) := by
  refine ⟨?_, ?_, ?_, ?_⟩
  · intro h
    unfold dispatchMessageToWorkflow
    rw [h]
  · intro h hd
    unfold dispatchMessageToWorkflow
    rw [h]
    simp [hd]
  · intro h hd
    unfold dispatchMessageToWorkflow
    rw [h]
    simp [hd]
  · intro hv
    simp [savePlainData, mergeState, hv]

def c2DeltaDiscard : WorkflowDelta := ⟨none, none, none, some WorkflowStatus.discard, []⟩

def c2DeltaK : WorkflowDelta := ⟨none, none, none, none, [("k", "v")]⟩

/-- C2 witness: the nil, discard, merge, and version-increment cases of the
amended dispatcher behaviour at concrete inputs. -/
theorem dispatch_merge_persist_amended_witness :
    dispatchMessageToWorkflow c2Fresh c2Old (fun _ => none) = none
    ∧ dispatchMessageToWorkflow c2Fresh c2Old (fun _ => some c2DeltaDiscard) = none
    ∧ dispatchMessageToWorkflow c2Fresh c2Old (fun _ => some c2DeltaK)
        = some (mergeState c2Fresh c2Old c2DeltaK)
    ∧ (savePlainData (mergeState c2Fresh c2Old c2DeltaK)).version = c2Old.version + 1 := by
  refine ⟨?_, ?_, ?_, ?_⟩
  · exact (dispatch_merge_persist_amended c2Fresh c2Old (fun _ => none) c2DeltaK).1 rfl
  · exact (dispatch_merge_persist_amended c2Fresh c2Old (fun _ => some c2DeltaDiscard)
      c2DeltaDiscard).2.1 rfl rfl
  · exact (dispatch_merge_persist_amended c2Fresh c2Old (fun _ => some c2DeltaK)
      c2DeltaK).2.2.1 rfl (by decide)
  · exact (dispatch_merge_persist_amended c2Fresh c2Old (fun _ => some c2DeltaK)
      c2DeltaK).2.2.2 rfl

def c3Default : WorkflowState := newWorkflowStateInstance "W"

def c3EmptyDelta : WorkflowDelta := ⟨none, none, none, none, []⟩

/-- C3 counterexample: the `startedBy` handler saves `{...state, ...result}`
without setting `$version = 1`; for a step returning an empty delta the state
passed to `saveWorkflowState` carries `$version = 0`, not 1 as claimed. -/
theorem startedBy_version_one_counterexample :
    startedByHandlerBody c3Default "uuid-1" (fun _ => some c3EmptyDelta)
      = some (spreadMerge (createWorkflowState c3Default "uuid-1") c3EmptyDelta)
    ∧ Option.map (fun st => st.version)
        (startedByHandlerBody c3Default "uuid-1" (fun _ => some c3EmptyDelta)) = some 0
    ∧ Option.map (fun st => st.version)
        (startedByHandlerBody c3Default "uuid-1" (fun _ => some c3EmptyDelta)) ≠ some 1 := by
  decide

/-- C3 amended: the handler creates a fresh state (new UUID, `$status =
Running`, `$version = 0`), invokes the step on a frozen copy, and if and only
if the step returns a non-nil delta, merges `{state, delta}` — without
touching `$version`, which stays 0 unless the delta sets it — and passes the
merge to `persistence.saveWorkflowState`; the insert branch of the SQL save
then stores `$version = 1`. -/
theorem startedBy_handler_amended (stateTypeDefault : WorkflowState)
    (freshUuid : String) (handler : WorkflowState → Option WorkflowDelta)
    (d : WorkflowDelta) (hv0 : stateTypeDefault.version = 0) :
    (createWorkflowState stateTypeDefault freshUuid).status = WorkflowStatus.running
    ∧ (createWorkflowState stateTypeDefault freshUuid).workflowId = freshUuid
    ∧ (createWorkflowState stateTypeDefault freshUuid).version = 0
    ∧ (handler (createWorkflowState stateTypeDefault freshUuid) = none →
        startedByHandlerBody stateTypeDefault freshUuid handler = none)
    ∧ (handler (createWorkflowState stateTypeDefault freshUuid) = some d →
        startedByHandlerBody stateTypeDefault freshUuid handler
          = some (spreadMerge (createWorkflowState stateTypeDefault freshUuid) d))
    ∧ (d.version = none →
        (spreadMerge (createWorkflowState stateTypeDefault freshUuid) d).version = 0
        ∧ ∀ tableName table,
            saveWorkflowData tableName table
                (spreadMerge (createWorkflowState stateTypeDefault freshUuid) d)
              = Except.ok (table ++
                  [⟨(spreadMerge (createWorkflowState stateTypeDefault freshUuid) d).workflowId,
                    1,
                    savePlainData
                      (spreadMerge (createWorkflowState stateTypeDefault freshUuid) d)⟩])) := by
  refine ⟨rfl, rfl, hv0, ?_, ?_, ?_⟩
  · intro h
    unfold startedByHandlerBody
    rw [h]
  · intro h
    unfold startedByHandlerBody
    rw [h]
  · intro hdv
    have hver : (spreadMerge (createWorkflowState stateTypeDefault freshUuid) d).version = 0 := by
      simp [spreadMerge, createWorkflowState, hdv, hv0]
    refine ⟨hver, ?_⟩
    intro tableName table
    unfold saveWorkflowData upsertWorkflowData
    simp [hver]

/-- C3 witness: the amended `startedBy` behaviour at a concrete state type,
UUID, and step. -/
theorem startedBy_handler_amended_witness :
    (createWorkflowState c3Default "u1").status = WorkflowStatus.running
    ∧ (createWorkflowState c3Default "u1").version = 0
    ∧ startedByHandlerBody c3Default "u1" (fun _ => none) = none
    ∧ startedByHandlerBody c3Default "u1" (fun _ => some c3EmptyDelta)
        = some (spreadMerge (createWorkflowState c3Default "u1") c3EmptyDelta)
    ∧ saveWorkflowData "t" []
        (spreadMerge (createWorkflowState c3Default "u1") c3EmptyDelta)
        = Except.ok
            [⟨(spreadMerge (createWorkflowState c3Default "u1") c3EmptyDelta).workflowId,
              1, savePlainData (spreadMerge (createWorkflowState c3Default "u1") c3EmptyDelta)⟩] := by
  have h1 := startedBy_handler_amended c3Default "u1" (fun _ => none) c3EmptyDelta rfl
  have h2 := startedBy_handler_amended c3Default "u1" (fun _ => some c3EmptyDelta)
    c3EmptyDelta rfl
  exact ⟨h1.1, h1.2.2.1, h1.2.2.2.1 rfl, h2.2.2.2.2.1 rfl, (h2.2.2.2.2.2 rfl).2 "t" []⟩

/-! ### Claim theorems: workflow registry lifecycle -/

/-- C4 counterexample: after registering one workflow and completing
`initialize()`, a second `initialize()` call does not fail — the first call
cleared the buffer, so the second returns silently at the empty-registry
guard. -/
theorem second_init_call_counterexample :
    wfRegister freshWorkflowRegistry "W" = Except.ok ⟨["W"], false, false⟩
    ∧ wfInitRun ⟨["W"], false, false⟩ = Except.ok ⟨[], true, false⟩
    ∧ wfInitRun ⟨[], true, false⟩ = Except.ok ⟨[], true, false⟩ := by
  decide

/-- C4 amended: a call entering while a first `initialize` is still in
progress (buffer non-empty, `isInitializing` set) fails; a call with an empty
buffer — in particular any call after a completed `initialize`, which cleared
the buffer — returns silently without error. -/
theorem workflow_registry_init_amended (s : WorkflowRegistryState) :
    (s.workflowRegistry ≠ [] →
      wfInitRun (wfInitEntered s) = Except.error WorkflowRegistryError.alreadyInitialized)
    ∧ (s.workflowRegistry = [] → wfInitRun s = Except.ok s)
    ∧ (∀ s', s.workflowRegistry ≠ [] → s.isInitialized = false →
        s.isInitializing = false → wfInitRun s = Except.ok s' →
        wfInitRun s' = Except.ok s') := by
  refine ⟨?_, ?_, ?_⟩
  · intro hne
    have h1 : s.workflowRegistry.isEmpty = false := by
      cases hl : s.workflowRegistry with
      | nil => exact absurd hl hne
      | cons a l => rfl
    unfold wfInitRun wfInitEntered
    simp [h1]
  · intro he
    unfold wfInitRun
    simp [he]
  · intro s' hne hinit hing hrun
    have h1 : s.workflowRegistry.isEmpty = false := by
      cases hl : s.workflowRegistry with
      | nil => exact absurd hl hne
      | cons a l => rfl
    unfold wfInitRun at hrun
    rw [h1, hinit, hing] at hrun
    simp at hrun
    rw [← hrun]
    decide

/-- C4 witness: the amended lifecycle behaviour at concrete registry states. -/
theorem workflow_registry_init_amended_witness :
    wfInitRun (wfInitEntered ⟨["W"], false, false⟩)
      = Except.error WorkflowRegistryError.alreadyInitialized
    ∧ wfInitRun freshWorkflowRegistry = Except.ok freshWorkflowRegistry
    ∧ wfInitRun ⟨[], true, false⟩ = Except.ok ⟨[], true, false⟩ := by
  refine ⟨(workflow_registry_init_amended ⟨["W"], false, false⟩).1 (by decide),
    (workflow_registry_init_amended freshWorkflowRegistry).2.1 rfl,
    (workflow_registry_init_amended ⟨["W"], false, false⟩).2.2 ⟨[], true, false⟩
      (by decide) rfl rfl (by decide)⟩

/-! ### Claim theorems: in-memory getWorkflowState -/

/-- C7: a falsy lookup key returns the empty list; otherwise, for an
initialized state type, the result is exactly the stored rows whose `mapsTo`
field equals the key and whose `$status` is `Running`, the status filter
being dropped when `includeCompleted` is requested. -/
theorem getWorkflowState_filter (store : MemStore) (stateName : String)
    (messageMap : MessageWorkflowMapping) (message : Msg) (includeCompleted : Bool) :
    ((messageMap.lookup message = none ∨ messageMap.lookup message = some "") →
      memGetWorkflowState store stateName messageMap message includeCompleted
        = Except.ok [])
    ∧ (∀ v items, messageMap.lookup message = some v → v ≠ "" →
        memLookup store stateName = some items →
        memGetWorkflowState store stateName messageMap message includeCompleted
          = Except.ok (items.filter fun d =>
              d.getField messageMap.mapsTo == some v
              && (d.status == WorkflowStatus.running || includeCompleted))) := by
  constructor
  · intro h
    rcases h with h | h <;> simp [memGetWorkflowState, h]
  · intro v items hv hne hst
    unfold memGetWorkflowState
    simp only [hv, hst]
    rw [if_neg hne]
    congr 1
    apply List.filter_congr
    intro d hd
    rw [Bool.and_comm, Bool.or_comm]

def c7MapNone : MessageWorkflowMapping := ⟨fun _ => none, "orderId"⟩

def c7Map : MessageWorkflowMapping := ⟨fun _ => some "X", "orderId"⟩

def c7Run : WorkflowState := ⟨"w1", "W", 1, WorkflowStatus.running, [("orderId", "X")]⟩

def c7Done : WorkflowState := ⟨"w2", "W", 1, WorkflowStatus.complete, [("orderId", "X")]⟩

def c7Other : WorkflowState := ⟨"w3", "W", 1, WorkflowStatus.running, [("orderId", "Y")]⟩

def c7Store : MemStore := [("W", [c7Run, c7Done, c7Other])]

/-- C7 witness: a falsy key yields `[]`; a truthy key yields only the running
row matching the key, and with `includeCompleted` also the completed one. -/
theorem getWorkflowState_filter_witness :
    memGetWorkflowState c7Store "W" c7MapNone ⟨some "M", 0⟩ false = Except.ok []
    ∧ memGetWorkflowState c7Store "W" c7Map ⟨some "M", 0⟩ false = Except.ok [c7Run]
    ∧ memGetWorkflowState c7Store "W" c7Map ⟨some "M", 0⟩ true
        = Except.ok [c7Run, c7Done] := by
  refine ⟨?_, ?_, ?_⟩
  · exact (getWorkflowState_filter c7Store "W" c7MapNone ⟨some "M", 0⟩ false).1 (Or.inl rfl)
  · have h := (getWorkflowState_filter c7Store "W" c7Map ⟨some "M", 0⟩ false).2 "X"
      [c7Run, c7Done, c7Other] rfl (by decide) rfl
    rw [h]
    decide
  · have h := (getWorkflowState_filter c7Store "W" c7Map ⟨some "M", 0⟩ true).2 "X"
      [c7Run, c7Done, c7Other] rfl (by decide) rfl
    rw [h]
    decide

/-- C9: in the in-memory persistence, `getWorkflowState` with a truthy lookup
key for a state type that was never initialized throws
`WorkflowStateNotInitialized` instead of returning an empty list. -/
theorem uninitialized_get_throws (store : MemStore) (stateName : String)
    (messageMap : MessageWorkflowMapping) (message : Msg) (includeCompleted : Bool)
    (v : String) (hv : messageMap.lookup message = some v) (hne : v ≠ "")
    (hmiss : memLookup store stateName = none) :
    memGetWorkflowState store stateName messageMap message includeCompleted
      = Except.error InMemoryError.workflowStateNotInitialized := by
  unfold memGetWorkflowState
  simp only [hv, hmiss]
  rw [if_neg hne]

/-- C9 witness: the empty store with a truthy key throws. -/
theorem uninitialized_get_throws_witness :
    memGetWorkflowState [] "W" c7Map ⟨some "M", 0⟩ false
      = Except.error InMemoryError.workflowStateNotInitialized :=
  uninitialized_get_throws [] "W" c7Map ⟨some "M", 0⟩ false "X" rfl (by decide) rfl

end Bus
